import Mathlib

/-!
# RC Tank License Server — shallow embedding and verification

This file embeds the license lifecycle core of `src/server.py` (a Flask +
sqlite license server) as pure Lean functions and proves properties of the
embedded operations.

Modelling decisions, all taken from the source:

* The sqlite `licenses` table is a `List LicenseRecord` in insertion order;
  the `UNIQUE NOT NULL` constraint on `license_key` is modelled by
  `insertLicense` failing (returning `none`, the `IntegrityError` of a
  duplicate insert) when the key is already present, and by lookups
  (`SELECT ... WHERE license_key = ?` with `fetchone`) returning the first
  matching row (`findRecord`).
* Timestamps (`time.time()` floats) are rationals `ℚ`; Python `int(x)`
  truncation toward zero is `pyInt`.
* Request JSON fields with defaults (`data.get('count', 1)` etc.) are
  `Option` arguments read with `getD`.
* The `license_key`/`machine_id` strings of activate/validate arrive
  already `.strip()`ed in the source before the emptiness test; the
  embedding's arguments stand for those post-strip strings, and Python's
  `if not key or not machine` is the emptiness test on them.
* `secrets.token_hex(8)` supplies 8 random bytes; the embedding takes the
  entropy as an explicit argument (a list of naturals reduced mod 256, so
  that actual bytes are represented identically).
* The human-readable `strftime` date strings of the responses are pure
  presentation of the raw timestamp; responses carry the raw timestamp
  instead.
-/

namespace RCTank

/-- Python `int(x)` for a rational: truncation toward zero, computed on
the numerator and (positive) denominator with natural division. -/
def pyInt (q : ℚ) : ℤ :=
  if 0 ≤ q.num then ((q.num.toNat / q.den : ℕ) : ℤ)
  else -(((-q.num).toNat / q.den : ℕ) : ℤ)

/-- Python `max(a, b)` on rationals. -/
def pyMax (a b : ℚ) : ℚ := if a ≤ b then b else a

/-- Python `max(a, b)` on integers. -/
def pyMaxI (a b : ℤ) : ℤ := if a ≤ b then b else a

/-- One row of the `licenses` table (`init_db` in `src/server.py`).
The `id` autoincrement column is the list position and is not stored. -/
structure LicenseRecord where
  license_key : String
  machine_id : String
  email : String
  created_at : ℚ
  expires_at : ℚ
  activated_at : ℚ
  revoked : Bool
  notes : String
deriving Repr, DecidableEq

/-- The persistent store: rows of the `licenses` table in insertion order. -/
abbrev Store := List LicenseRecord

/-- `SELECT * FROM licenses WHERE license_key = ?` followed by `fetchone()`:
the first row with the given key. -/
def findRecord (store : Store) (key : String) : Option LicenseRecord :=
  store.find? (fun r => r.license_key == key)

/-- `UPDATE licenses SET ... WHERE license_key = ?`: applies the mutation to
every row with the given key (at most one, under the UNIQUE constraint). -/
def updateRecord (store : Store) (key : String) (f : LicenseRecord → LicenseRecord) : Store :=
  store.map (fun r => if r.license_key == key then f r else r)

/-- `INSERT INTO licenses ...` under the `UNIQUE NOT NULL` constraint on
`license_key`: fails (sqlite `IntegrityError`) when the key already exists. -/
def insertLicense (store : Store) (r : LicenseRecord) : Option Store :=
  if store.any (fun x => x.license_key == r.license_key) then none
  else some (store ++ [r])

/-- The rejection taxonomy of the error-handling design (§7 of the spec);
each constructor corresponds to one distinct rejection branch of the
source's `activate`/`validate` handlers. -/
inductive Reason
  | MissingInput
  | NotFound
  | Revoked
  | Expired
  | MachineMismatch
deriving Repr, DecidableEq

/-- Successful activate/validate payload: the derived `days_left` integer
and the raw `expires_at` timestamp (rendered as a date string in the
source). -/
structure OkPayload where
  days_left : ℤ
  expires_at : ℚ
deriving Repr, DecidableEq

/-- Uppercase hexadecimal digit of a value below 16 (Python
`'%x' % n` then `.upper()`). -/
def hexDigit (n : ℕ) : Char :=
  if n < 10 then Char.ofNat (48 + n) else Char.ofNat (55 + n)

/-- The two uppercase hex characters of one byte of
`secrets.token_hex(8).upper()`. The `% 256` reduction makes the function
total on ℕ; on actual bytes (< 256) it is the identity. -/
def byteHexChars (b : ℕ) : List Char :=
  [hexDigit (b % 256 / 16), hexDigit (b % 256 % 16)]

/-- `generate_key()` from `src/server.py`, with the 8 random bytes of
`secrets.token_hex(8)` passed explicitly:
`raw = token_hex(8).upper()` then `raw[:4]-raw[4:8]-raw[8:12]-raw[12:16]`. -/
def generate_key (bytes : List ℕ) : String :=
  let raw := (bytes.map byteHexChars).flatten
  String.mk (raw.take 4 ++ [ '-' ] ++ ((raw.drop 4).take 4) ++ [ '-' ]
    ++ ((raw.drop 8).take 4) ++ [ '-' ] ++ ((raw.drop 12).take 4))

/-- Whether a character is an uppercase hexadecimal digit (`[0-9A-F]`). -/
def isUpperHexDigit (c : Char) : Bool :=
  (decide (Char.ofNat 48 ≤ c) && decide (c ≤ Char.ofNat 57))
    || (decide (Char.ofNat 65 ≤ c) && decide (c ≤ Char.ofNat 70))

/-- The regular expression `^[0-9A-F]\x7b4\x7d(-[0-9A-F]\x7b4\x7d)\x7b3\x7d$`
on a character list: four groups of four uppercase hex digits separated by
hyphens. -/
def keyFormatChars : List Char → Bool
  | [a, b, c, d, '-', e, f, g, h, '-', i, j, k, l, '-', m, n, o, p] =>
      [a, b, c, d, e, f, g, h, i, j, k, l, m, n, o, p].all isUpperHexDigit
  | _ => false

/-- Key-format check on a string. -/
def keyFormat (s : String) : Bool := keyFormatChars s.data

/-- `POST /api/activate`. Inputs are the stripped `license_key` and
`machine_id` strings and the wall-clock `now`. Returns the response and the
resulting store. -/
def activate (store : Store) (key machine : String) (now : ℚ) :
    Except Reason OkPayload × Store :=
  if key = "" ∨ machine = "" then (.error .MissingInput, store)
  else
    match findRecord store key with
    | none => (.error .NotFound, store)
    | some row =>
      if row.revoked then (.error .Revoked, store)
      else if row.expires_at < now then (.error .Expired, store)
      else if row.machine_id ≠ "" ∧ row.machine_id ≠ machine then
        (.error .MachineMismatch, store)
      else
        (.ok ⟨pyInt (pyMax 0 ((row.expires_at - now) / 86400)), row.expires_at⟩,
         updateRecord store key (fun r => { r with machine_id := machine, activated_at := now }))

/-- `POST /api/validate`. Performs no write; the store is returned
unchanged, mirroring the absence of any UPDATE in the handler. -/
def validate (store : Store) (key machine : String) (now : ℚ) :
    Except Reason OkPayload × Store :=
  if key = "" ∨ machine = "" then (.error .MissingInput, store)
  else
    match findRecord store key with
    | none => (.error .NotFound, store)
    | some row =>
      if row.revoked then (.error .Revoked, store)
      else if row.expires_at < now then (.error .Expired, store)
      else if row.machine_id ≠ machine then (.error .MachineMismatch, store)
      else
        (.ok ⟨pyInt (pyMax 0 ((row.expires_at - now) / 86400)), row.expires_at⟩, store)

/-- Response of `POST /api/admin/generate`: the keys in generation order,
the effective `days` and row count, and the shared raw expiry. -/
structure GenResponse where
  keys : List String
  days : ℚ
  expires : ℚ
  count : ℤ
deriving Repr, DecidableEq

/-- A freshly generated row: `INSERT INTO licenses (license_key, email,
created_at, expires_at, notes) VALUES (...)` with the table defaults
`machine_id = ''`, `activated_at = 0`, `revoked = 0`. -/
def newRecord (key email : String) (now expires : ℚ) (notes : String) : LicenseRecord :=
  { license_key := key, machine_id := "", email := email, created_at := now,
    expires_at := expires, activated_at := 0, revoked := false, notes := notes }

/-- The `for _ in range(count)` loop of `admin_generate`: at step `i` the
next key is generated from `entropy i` and inserted; a duplicate key aborts
the whole request (`none`). Returns the generated keys in order and the
final store. -/
def genLoop (email notes : String) (now expires : ℚ) (entropy : ℕ → List ℕ) :
    Store → ℕ → ℕ → Option (List String × Store)
  | store, _, 0 => some ([], store)
  | store, i, n + 1 =>
    let key := generate_key (entropy i)
    match insertLicense store (newRecord key email now expires notes) with
    | none => none
    | some store1 =>
      match genLoop email notes now expires entropy store1 (i + 1) n with
      | none => none
      | some (ks, st) => some (key :: ks, st)

/-- `POST /api/admin/generate`. `count = min(data.get('count', 1), 50)`
(no lower clamp in the source), `days = data.get('days', 30)`,
`expires = now + days*86400`. -/
def admin_generate (store : Store) (countArg : Option ℤ) (daysArg : Option ℚ) (email notes : String)
    (now : ℚ) (entropy : ℕ → List ℕ) : Option (GenResponse × Store) :=
  let count := min (countArg.getD 1) 50
  let days := daysArg.getD 30
  let expires := now + days * 86400
  match genLoop email notes now expires entropy store 0 count.toNat with
  | none => none
  | some (ks, st) => some ({ keys := ks, days := days, expires := expires, count := count }, st)

/-- `POST /api/admin/revoke`: `UPDATE licenses SET revoked = 1 WHERE
license_key = ?`; success is `rowcount > 0`. -/
def admin_revoke (store : Store) (key : String) : Bool × Store :=
  (store.any (fun r => r.license_key == key),
   updateRecord store key (fun r => { r with revoked := true }))

/-- `POST /api/admin/renew`: on an existing key, sets
`expires_at = max(now, expires_at) + days*86400` and `revoked = 0`;
returns the new expiry. -/
def admin_renew (store : Store) (key : String) (daysArg : Option ℚ) (now : ℚ) :
    Option ℚ × Store :=
  match findRecord store key with
  | none => (none, store)
  | some row =>
    let days := daysArg.getD 30
    let new_expires := pyMax now row.expires_at + days * 86400
    (some new_expires,
     updateRecord store key (fun r => { r with expires_at := new_expires, revoked := false }))

/-- `POST /api/admin/unbind`: `UPDATE licenses SET machine_id = '',
activated_at = 0 WHERE license_key = ?`; success is `rowcount > 0`. -/
def admin_unbind (store : Store) (key : String) : Bool × Store :=
  (store.any (fun r => r.license_key == key),
   updateRecord store key (fun r => { r with machine_id := "", activated_at := 0 }))

/-- One entry of the `GET /api/admin/list` response; `created` and
`expires` strings are presented as the raw timestamps. -/
structure ListEntry where
  license_key : String
  machine_id : String
  email : String
  created_at : ℚ
  expires_at : ℚ
  days_left : ℤ
  activated : Bool
  revoked : Bool
  notes : String
deriving Repr, DecidableEq

/-- Insertion step of `ORDER BY created_at DESC`: places the row before the
first strictly older row, keeping insertion order among ties. -/
def insertByCreated (r : LicenseRecord) : Store → Store
  | [] => [r]
  | x :: xs => if x.created_at < r.created_at then r :: x :: xs else x :: insertByCreated r xs

/-- `SELECT * FROM licenses ORDER BY created_at DESC`. -/
def sortByCreatedDesc : Store → Store
  | [] => []
  | x :: xs => insertByCreated x (sortByCreatedDesc xs)

/-- `GET /api/admin/list`: read-only projection of every row, newest first,
with `days_left = max(0, int((expires_at - now) / 86400))` and
`activated = bool(activated_at)`. -/
def admin_list (store : Store) (now : ℚ) : List ListEntry :=
  (sortByCreatedDesc store).map (fun r =>
    { license_key := r.license_key, machine_id := r.machine_id, email := r.email,
      created_at := r.created_at, expires_at := r.expires_at,
      days_left := pyMaxI 0 (pyInt ((r.expires_at - now) / 86400)),
      activated := decide (r.activated_at ≠ (0 : ℚ)), revoked := r.revoked, notes := r.notes })

/-- The `revoked` flag of the record stored at `key`, if any. -/
def revokedAt (store : Store) (key : String) : Option Bool :=
  (findRecord store key).map (fun r => r.revoked)

/-- The UNIQUE constraint as an invariant: all stored keys are distinct. -/
def storeKeysNodup (store : Store) : Prop :=
  (store.map (fun r => r.license_key)).Nodup

instance (store : Store) : Decidable (storeKeysNodup store) := by
  unfold storeKeysNodup; infer_instance

/-- A concrete entropy source for worked examples: call `i` yields the
8-byte chunk `[i, 0, 0, 0, 0, 0, 0, 0]`, so successive keys differ in
their first two hex characters. -/
def entZero : ℕ → List ℕ := fun i => [i, 0, 0, 0, 0, 0, 0, 0]

/-! ## Helper lemmas about the store primitives -/

lemma pyMax_eq_right {a b : ℚ} (h : a ≤ b) : pyMax a b = b := if_pos h

lemma pyMax_eq_left {a b : ℚ} (h : b ≤ a) : pyMax a b = a := by
  unfold pyMax
  split
  · next hab => exact (le_antisymm hab h).symm
  · rfl

lemma pyInt_eq_floor {q : ℚ} (h : 0 ≤ q) : pyInt q = ⌊q⌋ := by
  have hnum : 0 ≤ q.num := Rat.num_nonneg.mpr h
  unfold pyInt
  rw [if_pos hnum, Rat.floor_def, Int.ofNat_tdiv,
    Int.tdiv_eq_ediv (by positivity) (by positivity), Int.toNat_of_nonneg hnum]

lemma license_key_of_findRecord {store : Store} {key : String} {row : LicenseRecord}
    (h : findRecord store key = some row) : row.license_key = key := by
  have := List.find?_some h
  simpa using this

lemma findRecord_updateRecord (store : Store) (k key : String)
    (f : LicenseRecord → LicenseRecord) (hf : ∀ r, (f r).license_key = r.license_key) :
    findRecord (updateRecord store k f) key =
      (findRecord store key).map (fun r => if r.license_key == k then f r else r) := by
  induction store with
  | nil => rfl
  | cons x xs ih =>
    by_cases hx : x.license_key = key
    · have h1 : ((if x.license_key == k then f x else x).license_key == key) = true := by
        split <;> simp [hf, hx]
      have h2 : (x.license_key == key) = true := by simp [hx]
      simp only [updateRecord, List.map_cons, findRecord] at *
      simp only [List.find?_cons, h1, h2]
      rfl
    · have h1 : ((if x.license_key == k then f x else x).license_key == key) = false := by
        split <;> simp [hf, hx]
      have h2 : (x.license_key == key) = false := by simp [hx]
      simp only [updateRecord, List.map_cons, findRecord] at *
      simp only [List.find?_cons, h1, h2]
      exact ih

lemma findRecord_append_of_some {store : Store} {key : String} {row : LicenseRecord}
    (L : Store) (h : findRecord store key = some row) :
    findRecord (store ++ L) key = some row := by
  unfold findRecord at *
  rw [List.find?_append, h]
  rfl

lemma revokedAt_updateRecord (store : Store) (k key : String)
    (f : LicenseRecord → LicenseRecord) (hkey : ∀ r, (f r).license_key = r.license_key)
    (hrev : ∀ r, (f r).revoked = r.revoked) :
    revokedAt (updateRecord store k f) key = revokedAt store key := by
  unfold revokedAt
  rw [findRecord_updateRecord store k key f hkey]
  cases findRecord store key with
  | none => rfl
  | some r =>
    have hr : (if r.license_key == k then f r else r).revoked = r.revoked := by
      split
      · exact hrev _
      · rfl
    show some (if r.license_key == k then f r else r).revoked = some r.revoked
    exact congrArg some hr

lemma activate_snd (store : Store) (key machine : String) (now : ℚ) :
    (activate store key machine now).2 = store ∨
    (activate store key machine now).2 =
      updateRecord store key
        (fun r => { r with machine_id := machine, activated_at := now }) := by
  unfold activate
  split
  · exact Or.inl rfl
  · split
    · exact Or.inl rfl
    · split
      · exact Or.inl rfl
      · split
        · exact Or.inl rfl
        · split
          · exact Or.inl rfl
          · exact Or.inr rfl

lemma validate_snd (store : Store) (key machine : String) (now : ℚ) :
    (validate store key machine now).2 = store := by
  unfold validate
  split
  · rfl
  · split
    · rfl
    · split
      · rfl
      · split
        · rfl
        · split <;> rfl

lemma activate_error_snd (store : Store) (key machine : String) (now : ℚ)
    (e : Reason) (h : (activate store key machine now).1 = .error e) :
    (activate store key machine now).2 = store := by
  revert h
  unfold activate
  split
  · intro _; rfl
  · split
    · intro _; rfl
    · split
      · intro _; rfl
      · split
        · intro _; rfl
        · split
          · intro _; rfl
          · intro h; exact Except.noConfusion h

lemma insertLicense_eq_some {store : Store} {r : LicenseRecord} {store1 : Store}
    (h : insertLicense store r = some store1) :
    store1 = store ++ [r] ∧ ∀ x ∈ store, x.license_key ≠ r.license_key := by
  unfold insertLicense at h
  split at h
  · exact Option.noConfusion h
  · next hany =>
    refine ⟨(Option.some.inj h).symm, ?_⟩
    intro x hx
    simp only [List.any_eq_true, not_exists] at hany
    intro hk
    exact hany x ⟨hx, by simp [hk]⟩

lemma genLoop_spec (email notes : String) (now expires : ℚ) (entropy : ℕ → List ℕ) :
    ∀ (n i : ℕ) (store : Store) (ks : List String) (st : Store),
      genLoop email notes now expires entropy store i n = some (ks, st) →
      ∃ L : Store, st = store ++ L ∧ ks = L.map (fun r => r.license_key) ∧ L.length = n ∧
        ∀ r ∈ L, r.machine_id = "" ∧ r.email = email ∧ r.created_at = now ∧
          r.expires_at = expires ∧ r.activated_at = 0 ∧ r.revoked = false ∧
          r.notes = notes := by
  intro n
  induction n with
  | zero =>
    intro i store ks st h
    simp only [genLoop, Option.some.injEq, Prod.mk.injEq] at h
    obtain ⟨hks, hst⟩ := h
    refine ⟨[], by simp [← hst], by simp [← hks], rfl, by simp⟩
  | succ n ih =>
    intro i store ks st h
    simp only [genLoop] at h
    split at h
    · exact Option.noConfusion h
    · next store1 hins =>
      split at h
      · exact Option.noConfusion h
      · next ks1 st1 hrec =>
        simp only [Option.some.injEq, Prod.mk.injEq] at h
        obtain ⟨L, hst, hks, hlen, hprops⟩ := ih (i + 1) store1 ks1 st1 hrec
        have hstore1 := (insertLicense_eq_some hins).1
        refine ⟨newRecord (generate_key (entropy i)) email now expires notes :: L, ?_, ?_, ?_, ?_⟩
        · rw [← h.2, hst, hstore1]; simp
        · rw [← h.1, hks]; rfl
        · simp [hlen]
        · intro r hr
          rcases List.mem_cons.mp hr with hr | hr
          · subst hr; exact ⟨rfl, rfl, rfl, rfl, rfl, rfl, rfl⟩
          · exact hprops r hr

lemma genLoop_nodup (email notes : String) (now expires : ℚ) (entropy : ℕ → List ℕ) :
    ∀ (n i : ℕ) (store : Store) (ks : List String) (st : Store),
      storeKeysNodup store →
      genLoop email notes now expires entropy store i n = some (ks, st) →
      storeKeysNodup st := by
  intro n
  induction n with
  | zero =>
    intro i store ks st hnd h
    simp only [genLoop, Option.some.injEq, Prod.mk.injEq] at h
    rw [← h.2]; exact hnd
  | succ n ih =>
    intro i store ks st hnd h
    simp only [genLoop] at h
    split at h
    · exact Option.noConfusion h
    · next store1 hins =>
      split at h
      · exact Option.noConfusion h
      · next ks1 st1 hrec =>
        simp only [Option.some.injEq, Prod.mk.injEq] at h
        have hnd1 : storeKeysNodup store1 := by
          obtain ⟨heq, hfresh⟩ := insertLicense_eq_some hins
          rw [heq]
          unfold storeKeysNodup at *
          rw [List.map_append, List.nodup_append]
          refine ⟨hnd, by simp, ?_⟩
          intro a ha hb
          simp only [List.map_cons, List.map_nil, List.mem_singleton] at hb
          simp only [List.mem_map] at ha
          obtain ⟨x, hx, hxa⟩ := ha
          exact hfresh x hx (by rw [hxa, hb])
        rw [← h.2]
        exact ih (i + 1) store1 ks1 st1 hnd1 hrec

lemma admin_generate_eq_some {store : Store} {countArg : Option ℤ} {daysArg : Option ℚ}
    {email notes : String} {now : ℚ} {entropy : ℕ → List ℕ}
    {resp : GenResponse} {st : Store}
    (h : admin_generate store countArg daysArg email notes now entropy = some (resp, st)) :
    ∃ L : Store, st = store ++ L ∧ resp.keys = L.map (fun r => r.license_key) ∧
      L.length = (min (countArg.getD 1) 50).toNat ∧
      resp.days = daysArg.getD 30 ∧ resp.count = min (countArg.getD 1) 50 ∧
      resp.expires = now + (daysArg.getD 30) * 86400 ∧
      ∀ r ∈ L, r.machine_id = "" ∧ r.email = email ∧ r.created_at = now ∧
        r.expires_at = now + (daysArg.getD 30) * 86400 ∧ r.activated_at = 0 ∧
        r.revoked = false ∧ r.notes = notes := by
  simp only [admin_generate] at h
  split at h
  · exact Option.noConfusion h
  · next ks st1 hloop =>
    simp only [Option.some.injEq, Prod.mk.injEq] at h
    obtain ⟨L, hst, hks, hlen, hprops⟩ :=
      genLoop_spec email notes now (now + (daysArg.getD 30) * 86400) entropy
        (min (countArg.getD 1) 50).toNat 0 store ks st1 hloop
    refine ⟨L, ?_, ?_, hlen, ?_, ?_, ?_, hprops⟩
    · rw [← h.2]; exact hst
    · rw [← h.1, hks]
    · rw [← h.1]
    · rw [← h.1]
    · rw [← h.1]

lemma admin_generate_nodup {store : Store} {countArg : Option ℤ} {daysArg : Option ℚ}
    {email notes : String} {now : ℚ} {entropy : ℕ → List ℕ}
    {resp : GenResponse} {st : Store} (hnd : storeKeysNodup store)
    (h : admin_generate store countArg daysArg email notes now entropy = some (resp, st)) :
    storeKeysNodup st := by
  simp only [admin_generate] at h
  split at h
  · exact Option.noConfusion h
  · next ks st1 hloop =>
    simp only [Option.some.injEq, Prod.mk.injEq] at h
    rw [← h.2]
    exact genLoop_nodup email notes now _ entropy _ 0 store ks st1 hnd hloop

/-! ## Helper lemmas about admin_list sorting -/

lemma mem_insertByCreated {r x : LicenseRecord} {l : Store} :
    x ∈ insertByCreated r l ↔ x = r ∨ x ∈ l := by
  induction l with
  | nil => simp [insertByCreated]
  | cons y ys ih =>
    simp only [insertByCreated]
    split
    · simp
    · simp only [List.mem_cons, ih]
      tauto

lemma length_insertByCreated (r : LicenseRecord) (l : Store) :
    (insertByCreated r l).length = l.length + 1 := by
  induction l with
  | nil => rfl
  | cons y ys ih =>
    simp only [insertByCreated]
    split
    · rfl
    · simp [ih]

lemma mem_sortByCreatedDesc {x : LicenseRecord} {l : Store} :
    x ∈ sortByCreatedDesc l ↔ x ∈ l := by
  induction l with
  | nil => simp [sortByCreatedDesc]
  | cons y ys ih => simp [sortByCreatedDesc, mem_insertByCreated, ih]

lemma length_sortByCreatedDesc (l : Store) :
    (sortByCreatedDesc l).length = l.length := by
  induction l with
  | nil => rfl
  | cons y ys ih => simp [sortByCreatedDesc, length_insertByCreated, ih]

/-! ## Helper lemmas about key generation -/

lemma isUpperHexDigit_hexDigit : ∀ n : ℕ, n < 16 → isUpperHexDigit (hexDigit n) = true := by
  decide

lemma isUpperHexDigit_hexDigit_hi (b : ℕ) :
    isUpperHexDigit (hexDigit (b % 256 / 16)) = true :=
  isUpperHexDigit_hexDigit _ (by omega)

lemma isUpperHexDigit_hexDigit_lo (b : ℕ) :
    isUpperHexDigit (hexDigit (b % 256 % 16)) = true :=
  isUpperHexDigit_hexDigit _ (by omega)

lemma keyFormat_generate_key (bytes : List ℕ) (h : bytes.length = 8) :
    keyFormat (generate_key bytes) = true := by
  match bytes, h with
  | [b1, b2, b3, b4, b5, b6, b7, b8], _ =>
    show keyFormatChars _ = true
    simp only [generate_key, byteHexChars, List.map, List.flatten, List.take, List.drop,
      List.cons_append, List.nil_append]
    simp only [keyFormatChars]
    simp [isUpperHexDigit_hexDigit_hi, isUpperHexDigit_hexDigit_lo]

/-! ## Claim theorems -/

/-- C2: for every existing record, `renew(key, days)` succeeds and sets the
new expiry to `max(now, expires_at) + days*86400`; an unexpired record gets
`expires_at + days*86400`, an expired one `now + days*86400`; `revoked` is
always cleared, with no precondition on `machine_id`. -/
theorem renew_extends_expiry (store : Store) (key : String) (daysArg : Option ℚ)
    (now : ℚ) (row : LicenseRecord) (hfind : findRecord store key = some row) :
    (admin_renew store key daysArg now).1 =
      some (pyMax now row.expires_at + (daysArg.getD 30) * 86400) ∧
    findRecord (admin_renew store key daysArg now).2 key =
      some { row with
        expires_at := pyMax now row.expires_at + (daysArg.getD 30) * 86400,
        revoked := false } ∧
    (now ≤ row.expires_at →
      pyMax now row.expires_at + (daysArg.getD 30) * 86400
        = row.expires_at + (daysArg.getD 30) * 86400) ∧
    (row.expires_at ≤ now →
      pyMax now row.expires_at + (daysArg.getD 30) * 86400
        = now + (daysArg.getD 30) * 86400) := by
  have hlk := license_key_of_findRecord hfind
  refine ⟨?_, ?_, ?_, ?_⟩
  · simp only [admin_renew, hfind]
  · simp only [admin_renew, hfind]
    rw [findRecord_updateRecord store key key
      (fun r => { r with
        expires_at := pyMax now row.expires_at + (daysArg.getD 30) * 86400,
        revoked := false })
      (fun r => rfl)]
    rw [hfind]
    simp [hlk]
  · intro h
    rw [pyMax_eq_right h]
  · intro h
    rw [pyMax_eq_left h]

/-- C2 witness: renewing, with `days = 30`, a record that expires at
`864000` (10 days) from a current time of `0` yields expiry `3456000 =
864000 + 30*86400`, and the stored record is updated accordingly with
`revoked` cleared. -/
theorem renew_extends_expiry_witness :
    (admin_renew [⟨"K", "M", "", 0, 864000, 0, true, ""⟩] "K" (some 30) 0).1
      = some 3456000 ∧
    findRecord (admin_renew [⟨"K", "M", "", 0, 864000, 0, true, ""⟩] "K" (some 30) 0).2 "K"
      = some ⟨"K", "M", "", 0, 3456000, 0, false, ""⟩ := by
  have h := renew_extends_expiry [⟨"K", "M", "", 0, 864000, 0, true, ""⟩] "K" (some 30) 0
    ⟨"K", "M", "", 0, 864000, 0, true, ""⟩ (by decide)
  refine ⟨?_, ?_⟩
  · rw [h.1]; norm_num [pyMax]
  · rw [h.2.1]; norm_num [pyMax]

/-- C4: `validate(key, machine_id)` with both inputs present mutates no
record, and succeeds if and only if the record exists, is not revoked, is
not past expiry, and the supplied machine id equals the bound one exactly;
a record with empty `machine_id` fails validate for every supplied
machine id. -/
theorem validate_characterization (store : Store) (key machine : String) (now : ℚ)
    (hkey : key ≠ "") (hmach : machine ≠ "") :
    (validate store key machine now).2 = store ∧
    ((∃ p, (validate store key machine now).1 = .ok p) ↔
      ∃ row, findRecord store key = some row ∧ row.revoked = false ∧
        now ≤ row.expires_at ∧ row.machine_id = machine) ∧
    (∀ row, findRecord store key = some row → row.machine_id = "" →
      ∃ e, (validate store key machine now).1 = .error e) := by
  have hin : ¬(key = "" ∨ machine = "") := by simp [hkey, hmach]
  refine ⟨validate_snd _ _ _ _, ?_, ?_⟩
  · cases hfr : findRecord store key with
    | none =>
      simp only [validate, if_neg hin, hfr]
      constructor
      · rintro ⟨p, hp⟩; exact Except.noConfusion hp
      · rintro ⟨row, hrow, -⟩; exact Option.noConfusion hrow
    | some row =>
      simp only [validate, if_neg hin, hfr]
      by_cases hrev : row.revoked
      · simp [hrev]
      · by_cases hexp : row.expires_at < now
        · simp [hrev, hexp]
        · by_cases hm : row.machine_id = machine
          · simp [hrev, hexp, hm]
            exact le_of_not_lt hexp
          · simp [hrev, hexp, hm]
  · intro row hrow hempty
    have hm : row.machine_id ≠ machine := by
      rw [hempty]; exact fun h => hmach h.symm
    by_cases hrev : row.revoked
    · refine ⟨.Revoked, ?_⟩
      simp only [validate, if_neg hin, hrow, hrev]
      simp
    · by_cases hexp : row.expires_at < now
      · refine ⟨.Expired, ?_⟩
        simp only [validate, if_neg hin, hrow]
        simp [hrev, hexp]
      · refine ⟨.MachineMismatch, ?_⟩
        simp only [validate, if_neg hin, hrow]
        simp [hrev, hexp, hm]

/-- C4 witness: with one unexpired, unrevoked record bound to machine
`M1`, validate with the matching machine succeeds, validate against a
record with empty machine id fails, and the store is unchanged. -/
theorem validate_characterization_witness :
    (validate [⟨"K", "M1", "", 0, 100, 5, false, ""⟩] "K" "M1" 50).2
      = [⟨"K", "M1", "", 0, 100, 5, false, ""⟩] ∧
    (∃ p, (validate [⟨"K", "M1", "", 0, 100, 5, false, ""⟩] "K" "M1" 50).1 = .ok p) ∧
    (∃ e, (validate [⟨"K", "", "", 0, 100, 0, false, ""⟩] "K" "M1" 50).1 = .error e) := by
  have h1 := validate_characterization [⟨"K", "M1", "", 0, 100, 5, false, ""⟩] "K" "M1" 50
    (by decide) (by decide)
  have h2 := validate_characterization [⟨"K", "", "", 0, 100, 0, false, ""⟩] "K" "M1" 50
    (by decide) (by decide)
  refine ⟨h1.1, ?_, ?_⟩
  · exact h1.2.1.mpr ⟨⟨"K", "M1", "", 0, 100, 5, false, ""⟩, by decide, rfl, by norm_num, rfl⟩
  · exact h2.2.2 ⟨"K", "", "", 0, 100, 0, false, ""⟩ (by decide) rfl

/-- C6: activating a record already bound to the same machine id, when it
is neither revoked nor expired, succeeds and updates `activated_at` to the
current time while keeping `machine_id` unchanged. -/
theorem activate_rebind_same_machine (store : Store) (key machine : String) (now : ℚ)
    (row : LicenseRecord) (hfind : findRecord store key = some row)
    (hbound : row.machine_id = machine) (hkey : key ≠ "") (hmach : machine ≠ "")
    (hrev : row.revoked = false) (hexp : ¬ row.expires_at < now) :
    (activate store key machine now).1 =
      .ok ⟨pyInt (pyMax 0 ((row.expires_at - now) / 86400)), row.expires_at⟩ ∧
    findRecord (activate store key machine now).2 key =
      some { row with machine_id := machine, activated_at := now } := by
  have hin : ¬(key = "" ∨ machine = "") := by simp [hkey, hmach]
  have hlk := license_key_of_findRecord hfind
  have hnomis : ¬(row.machine_id ≠ "" ∧ row.machine_id ≠ machine) := by
    rintro ⟨-, h2⟩; exact h2 hbound
  have hrevne : ¬ row.revoked = true := by rw [hrev]; exact Bool.false_ne_true
  constructor
  · simp only [activate, if_neg hin, hfind]
    rw [if_neg hrevne, if_neg hexp, if_neg hnomis]
  · simp only [activate, if_neg hin, hfind]
    rw [if_neg hrevne, if_neg hexp, if_neg hnomis]
    rw [findRecord_updateRecord store key key
      (fun r => { r with machine_id := machine, activated_at := now }) (fun r => rfl)]
    rw [hfind]
    simp [hlk]

/-- C6 witness: re-activating a record bound to `M1` with `M1` at time 50
succeeds and sets `activated_at = 50`. -/
theorem activate_rebind_same_machine_witness :
    (activate [⟨"K", "M1", "", 0, 100, 5, false, ""⟩] "K" "M1" 50).1 =
      .ok ⟨0, 100⟩ ∧
    findRecord (activate [⟨"K", "M1", "", 0, 100, 5, false, ""⟩] "K" "M1" 50).2 "K" =
      some ⟨"K", "M1", "", 0, 100, 50, false, ""⟩ := by
  have h := activate_rebind_same_machine [⟨"K", "M1", "", 0, 100, 5, false, ""⟩] "K" "M1" 50
    ⟨"K", "M1", "", 0, 100, 5, false, ""⟩ (by decide) rfl (by decide) (by decide) rfl
    (by norm_num)
  refine ⟨?_, ?_⟩
  · rw [h.1]
    have hz : pyInt (pyMax 0 ((100 - 50) / 86400 : ℚ)) = 0 := by
      rw [show pyMax 0 ((100 - 50) / 86400 : ℚ) = 50 / 86400 from by norm_num [pyMax]]
      rw [pyInt_eq_floor (by norm_num)]
      norm_num
    rw [hz]
  · rw [h.2]

/-- C10: on a record that is both revoked and expired, activate and
validate both reject with the Revoked reason, not the Expired one: the
revoked check precedes the expiry check. -/
theorem revoked_precedes_expired (store : Store) (key machine : String) (now : ℚ)
    (row : LicenseRecord) (hfind : findRecord store key = some row)
    (hrev : row.revoked = true) (_hexp : row.expires_at < now)
    (hkey : key ≠ "") (hmach : machine ≠ "") :
    (activate store key machine now).1 = .error .Revoked ∧
    (validate store key machine now).1 = .error .Revoked ∧
    (activate store key machine now).1 ≠ .error .Expired ∧
    (validate store key machine now).1 ≠ .error .Expired := by
  have hin : ¬(key = "" ∨ machine = "") := by simp [hkey, hmach]
  have ha : (activate store key machine now).1 = .error .Revoked := by
    simp only [activate, if_neg hin, hfind]
    simp [hrev]
  have hv : (validate store key machine now).1 = .error .Revoked := by
    simp only [validate, if_neg hin, hfind]
    simp [hrev]
  refine ⟨ha, hv, ?_, ?_⟩
  · rw [ha]; simp
  · rw [hv]; simp

/-- C10 witness: a record revoked and expired (expiry 100, now 200)
rejects activate and validate with Revoked. -/
theorem revoked_precedes_expired_witness :
    (activate [⟨"K", "M1", "", 0, 100, 5, true, ""⟩] "K" "M1" 200).1 = .error .Revoked ∧
    (validate [⟨"K", "M1", "", 0, 100, 5, true, ""⟩] "K" "M1" 200).1 = .error .Revoked := by
  have h := revoked_precedes_expired [⟨"K", "M1", "", 0, 100, 5, true, ""⟩] "K" "M1" 200
    ⟨"K", "M1", "", 0, 100, 5, true, ""⟩ (by decide) rfl (by norm_num) (by decide) (by decide)
  exact ⟨h.1, h.2.1⟩

/-- C3: activating a record bound to a non-empty machine id with a
different machine id is rejected and leaves the store unchanged — when the
record is otherwise serviceable (inputs present, not revoked, not expired)
the reason is MachineMismatch — and, in general, every rejected activate
performs no mutation whatsoever. -/
theorem activate_mismatch_no_mutation (store : Store) (key machine : String) (now : ℚ)
    (row : LicenseRecord) (hfind : findRecord store key = some row)
    (hbound : row.machine_id ≠ "") (hdiff : machine ≠ row.machine_id) :
    ((activate store key machine now).2 = store ∧
      ∃ e, (activate store key machine now).1 = .error e) ∧
    (key ≠ "" → machine ≠ "" → row.revoked = false → ¬ row.expires_at < now →
      (activate store key machine now).1 = .error .MachineMismatch) ∧
    (∀ (store2 : Store) (key2 machine2 : String) (now2 : ℚ) (e : Reason),
      (activate store2 key2 machine2 now2).1 = .error e →
      (activate store2 key2 machine2 now2).2 = store2) := by
  have hmm : row.machine_id ≠ machine := fun h => hdiff h.symm
  refine ⟨?_, ?_, ?_⟩
  · have hres : ∃ e, activate store key machine now = (.error e, store) := by
      by_cases hin : key = "" ∨ machine = ""
      · refine ⟨.MissingInput, ?_⟩
        simp only [activate, if_pos hin]
      · by_cases hrev : row.revoked = true
        · refine ⟨.Revoked, ?_⟩
          simp only [activate, if_neg hin, hfind, if_pos hrev]
        · by_cases hexp : row.expires_at < now
          · refine ⟨.Expired, ?_⟩
            simp only [activate, if_neg hin, hfind, if_neg hrev, if_pos hexp]
          · refine ⟨.MachineMismatch, ?_⟩
            simp only [activate, if_neg hin, hfind, if_neg hrev, if_neg hexp,
              if_pos (And.intro hbound hmm)]
    obtain ⟨e, he⟩ := hres
    rw [he]
    exact ⟨rfl, e, rfl⟩
  · intro hkey hmach hrev hexp
    have hin : ¬(key = "" ∨ machine = "") := by simp [hkey, hmach]
    simp only [activate, if_neg hin, hfind]
    rw [if_neg (by rw [hrev]; exact Bool.false_ne_true), if_neg hexp, if_pos ⟨hbound, hmm⟩]
  · intro store2 key2 machine2 now2 e he
    exact activate_error_snd store2 key2 machine2 now2 e he

/-- C3 witness: a record bound to `M1` rejects activation by `M2` with
MachineMismatch and the store is unchanged. -/
theorem activate_mismatch_no_mutation_witness :
    (activate [⟨"K", "M1", "", 0, 100, 5, false, ""⟩] "K" "M2" 50).2
      = [⟨"K", "M1", "", 0, 100, 5, false, ""⟩] ∧
    (activate [⟨"K", "M1", "", 0, 100, 5, false, ""⟩] "K" "M2" 50).1
      = .error .MachineMismatch := by
  have h := activate_mismatch_no_mutation [⟨"K", "M1", "", 0, 100, 5, false, ""⟩] "K" "M2" 50
    ⟨"K", "M1", "", 0, 100, 5, false, ""⟩ (by decide) (by decide) (by decide)
  exact ⟨h.1.1, h.2.1 (by decide) (by decide) rfl (by norm_num)⟩

/-- C1: a revoked record blocks activate and validate with the Revoked
reason regardless of expiry or binding, and among generate, activate,
validate, revoke, renew, unbind and list, renew is the only operation that
changes the revoked flag from true to false (list is read-only by type:
`admin_list` returns entries without touching the store). -/
theorem revoked_blocks_until_renew (store : Store) (key : String)
    (row : LicenseRecord) (hfind : findRecord store key = some row)
    (hrev : row.revoked = true) :
    (∀ machine now, key ≠ "" → machine ≠ "" →
      (activate store key machine now).1 = .error .Revoked ∧
      (validate store key machine now).1 = .error .Revoked) ∧
    (∀ key2 machine now, revokedAt (activate store key2 machine now).2 key = some true) ∧
    (∀ key2 machine now, revokedAt (validate store key2 machine now).2 key = some true) ∧
    (∀ (countArg : Option ℤ) (daysArg : Option ℚ) (email notes : String) (now : ℚ)
        (entropy : ℕ → List ℕ) (resp : GenResponse) (st : Store),
      admin_generate store countArg daysArg email notes now entropy = some (resp, st) →
      revokedAt st key = some true) ∧
    (∀ key2, revokedAt (admin_revoke store key2).2 key = some true) ∧
    (∀ key2, revokedAt (admin_unbind store key2).2 key = some true) ∧
    (∀ daysArg now, revokedAt (admin_renew store key daysArg now).2 key = some false) := by
  have hlk := license_key_of_findRecord hfind
  refine ⟨?_, ?_, ?_, ?_, ?_, ?_, ?_⟩
  · intro machine now hkey hmach
    have hin : ¬(key = "" ∨ machine = "") := by simp [hkey, hmach]
    constructor
    · simp only [activate, if_neg hin, hfind]
      simp [hrev]
    · simp only [validate, if_neg hin, hfind]
      simp [hrev]
  · intro key2 machine now
    rcases activate_snd store key2 machine now with h | h
    · rw [h]; simp [revokedAt, hfind, hrev]
    · rw [h, revokedAt_updateRecord store key2 key
        (fun r => { r with machine_id := machine, activated_at := now })
        (fun r => rfl) (fun r => rfl)]
      simp [revokedAt, hfind, hrev]
  · intro key2 machine now
    rw [validate_snd]
    simp [revokedAt, hfind, hrev]
  · intro countArg daysArg email notes now entropy resp st hgen
    obtain ⟨L, hst, -, -, -, -, -, -⟩ := admin_generate_eq_some hgen
    rw [hst]
    unfold revokedAt
    rw [findRecord_append_of_some L hfind]
    simp [hrev]
  · intro key2
    unfold admin_revoke revokedAt
    rw [findRecord_updateRecord store key2 key
      (fun r => { r with revoked := true }) (fun r => rfl), hfind]
    show some (if (row.license_key == key2) = true
      then { row with revoked := true } else row).revoked = some true
    split
    · rfl
    · rw [hrev]
  · intro key2
    unfold admin_unbind
    rw [revokedAt_updateRecord store key2 key
      (fun r => { r with machine_id := "", activated_at := 0 })
      (fun r => rfl) (fun r => rfl)]
    simp [revokedAt, hfind, hrev]
  · intro daysArg now
    simp only [admin_renew, hfind]
    unfold revokedAt
    rw [findRecord_updateRecord store key key
      (fun r => { r with
        expires_at := pyMax now row.expires_at + (daysArg.getD 30) * 86400,
        revoked := false })
      (fun r => rfl), hfind]
    simp [hlk]

/-- C1 witness: a revoked record rejects activate and validate with
Revoked; revoke keeps the flag set, renew clears it. -/
theorem revoked_blocks_until_renew_witness :
    (activate [⟨"K", "M", "", 0, 100, 0, true, ""⟩] "K" "M" 7).1 = .error .Revoked ∧
    (validate [⟨"K", "M", "", 0, 100, 0, true, ""⟩] "K" "M" 7).1 = .error .Revoked ∧
    revokedAt (admin_revoke [⟨"K", "M", "", 0, 100, 0, true, ""⟩] "K").2 "K" = some true ∧
    revokedAt (admin_renew [⟨"K", "M", "", 0, 100, 0, true, ""⟩] "K" (some 30) 7).2 "K"
      = some false := by
  have h := revoked_blocks_until_renew [⟨"K", "M", "", 0, 100, 0, true, ""⟩] "K"
    ⟨"K", "M", "", 0, 100, 0, true, ""⟩ (by decide) rfl
  exact ⟨(h.1 "M" 7 (by decide) (by decide)).1, (h.1 "M" 7 (by decide) (by decide)).2,
    h.2.2.2.2.1 "K", h.2.2.2.2.2.2 (some 30) 7⟩

/-- C5 counterexample:`generate` with requested count 0 produces 0
records, not at least 1 — the source clamps the count only from above
(`min(count, 50)`), never up to 1. -/
theorem generate_count_zero_counterexample :
    (admin_generate [] (some 0) none "" "" 0 entZero).map (fun p => p.2.length)
      = some 0 := by
  decide

/-- C5 (amended): `generate` clamps the requested count from above at 50
without error (more than 50 yields exactly 50), a count of 0 or less
yields that many records, i.e. none; an unspecified count defaults to 1
and an unspecified `days` defaults to 30; each produced record is unbound
with identical email, notes and expiry across the batch. -/
theorem generate_clamp_amended (store : Store) (countArg : Option ℤ) (daysArg : Option ℚ)
    (email notes : String) (now : ℚ) (entropy : ℕ → List ℕ)
    (resp : GenResponse) (st : Store)
    (h : admin_generate store countArg daysArg email notes now entropy = some (resp, st)) :
    resp.keys.length = (min (countArg.getD 1) 50).toNat ∧
    (∀ c : ℤ, countArg = some c → 50 < c → resp.keys.length = 50) ∧
    (∀ c : ℤ, countArg = some c → c ≤ 0 → resp.keys.length = 0) ∧
    (countArg = none → resp.keys.length = 1) ∧
    resp.days = daysArg.getD 30 ∧
    (daysArg = none → resp.days = 30) ∧
    ∃ L : Store, st = store ++ L ∧ L.length = resp.keys.length ∧
      ∀ r ∈ L, r.machine_id = "" ∧ r.email = email ∧ r.notes = notes ∧
        r.expires_at = now + (daysArg.getD 30) * 86400 ∧
        r.activated_at = 0 ∧ r.revoked = false := by
  obtain ⟨L, hst, hks, hlen, hdays, hcount, hexpires, hprops⟩ := admin_generate_eq_some h
  have hklen : resp.keys.length = (min (countArg.getD 1) 50).toNat := by
    rw [hks, List.length_map, hlen]
  refine ⟨hklen, ?_, ?_, ?_, hdays, ?_, L, hst, ?_, ?_⟩
  · intro c hc h50
    rw [hklen, hc]
    simp only [Option.getD_some]
    rw [min_eq_right (le_of_lt h50)]
    rfl
  · intro c hc hle
    rw [hklen, hc]
    simp only [Option.getD_some]
    rw [min_eq_left (le_trans hle (by norm_num))]
    omega
  · intro hnone
    rw [hklen, hnone]
    rfl
  · intro hnone
    rw [hdays, hnone]
    rfl
  · rw [hklen, hlen]
  · intro r hr
    obtain ⟨h1, h2, -, h4, h5, h6, h7⟩ := hprops r hr
    exact ⟨h1, h2, h7, h4, h5, h6⟩

/-- C5 witness: requesting 60 keys yields exactly 50; the produced records
are unbound and share the default 30-day expiry. -/
theorem generate_clamp_amended_witness :
    (∃ resp st, admin_generate [] (some 60) none "e@x" "n" 0 entZero = some (resp, st) ∧
      resp.keys.length = 50) := by
  cases hgen : admin_generate [] (some 60) none "e@x" "n" 0 entZero with
  | none => exact absurd hgen (by decide)
  | some p =>
    obtain ⟨resp, st⟩ := p
    have h := generate_clamp_amended [] (some 60) none "e@x" "n" 0 entZero resp st hgen
    exact ⟨resp, st, rfl, h.2.1 60 rfl (by norm_num)⟩

/-- C7 counterexample: generate 3 keys for 30 days at time 0; an admin
list performed at time 1 — after the generation, before any other
operation — shows `days_left = 29` for all three entries, not 30, because
`int((expires_at - now)/86400)` truncates as soon as any time has
passed. -/
theorem generate_three_list_after_counterexample :
    (admin_generate [] (some 3) (some 30) "a@b.com" "" 0 entZero).map
      (fun p => (admin_list p.2 1).map (fun e => e.days_left)) = some [29, 29, 29] := by
  cases hgen : admin_generate [] (some 3) (some 30) "a@b.com" "" 0 entZero with
  | none => exact absurd hgen (by decide)
  | some p =>
    obtain ⟨resp, st⟩ := p
    rw [Option.map_some']
    obtain ⟨L, hst, -, hlen, -, -, -, hprops⟩ := admin_generate_eq_some hgen
    have hstL : st = L := by simpa using hst
    have hlen3 : L.length = 3 := by simpa using hlen
    have hdl : ∀ e ∈ admin_list st 1, e.days_left = 29 := by
      intro e he
      unfold admin_list at he
      obtain ⟨r, hr, hre⟩ := List.mem_map.mp he
      have hrL : r ∈ L := hstL ▸ mem_sortByCreatedDesc.mp hr
      have hex := (hprops r hrL).2.2.2.1
      rw [← hre]
      show pyMaxI 0 (pyInt ((r.expires_at - 1) / 86400)) = 29
      rw [hex]
      rw [show ((0 + (((some (30:ℚ))).getD 30) * 86400 - 1) / 86400 : ℚ)
          = 2591999 / 86400 from by norm_num]
      rw [pyInt_eq_floor (by norm_num)]
      rw [show ⌊(2591999 / 86400 : ℚ)⌋ = 29 from by norm_num]
      decide
    have hlist3 : (admin_list st 1).length = 3 := by
      unfold admin_list
      rw [List.length_map, length_sortByCreatedDesc, hstL, hlen3]
    congr 1
    rw [show ([29, 29, 29] : List ℤ) = List.replicate 3 29 from rfl]
    refine List.eq_replicate_iff.mpr ⟨?_, ?_⟩
    · rw [List.length_map, hlist3]
    · intro b hb
      obtain ⟨e, he, hbe⟩ := List.mem_map.mp hb
      rw [← hbe]
      exact hdl e he

/-- C7 (amended): generate(count=3, days=30, email="a@b.com") at time `t`
on an empty store returns 3 distinct keys, every stored record has
`expires_at = t + 30*86400`, and an AdminList performed at the same time
`t`, before any other operation, shows the 3 entries with
`activated = false`, `revoked = false` and `days_left = 30`. -/
theorem generate_three_then_list (t : ℚ) (entropy : ℕ → List ℕ)
    (resp : GenResponse) (st : Store)
    (h : admin_generate [] (some 3) (some 30) "a@b.com" "" t entropy = some (resp, st)) :
    resp.keys.length = 3 ∧ resp.keys.Nodup ∧
    (∀ r ∈ st, r.expires_at = t + 30 * 86400) ∧
    (admin_list st t).length = 3 ∧
    (∀ e ∈ admin_list st t,
      e.activated = false ∧ e.revoked = false ∧ e.days_left = 30) := by
  obtain ⟨L, hst, hks, hlen, hdays, hcount, hexpires, hprops⟩ := admin_generate_eq_some h
  have hstL : st = L := by simpa using hst
  have hlen3 : L.length = 3 := by simpa using hlen
  have hcast : (((some 30 : Option ℚ)).getD 30) * 86400 = (30 : ℚ) * 86400 := by
    norm_num
  have hklen : resp.keys.length = 3 := by rw [hks, List.length_map, hlen3]
  have hexp : ∀ r ∈ st, r.expires_at = t + 30 * 86400 := by
    intro r hr
    rw [hstL] at hr
    have := (hprops r hr).2.2.2.1
    rw [this, hcast]
  refine ⟨hklen, ?_, hexp, ?_, ?_⟩
  · have hnd : storeKeysNodup st :=
      admin_generate_nodup (by simp [storeKeysNodup]) h
    have hkeq : resp.keys = st.map (fun r => r.license_key) := by rw [hks, hstL]
    rw [hkeq]
    exact hnd
  · unfold admin_list
    rw [List.length_map, length_sortByCreatedDesc, hstL, hlen3]
  · intro e he
    unfold admin_list at he
    obtain ⟨r, hr, hre⟩ := List.mem_map.mp he
    have hrst : r ∈ st := mem_sortByCreatedDesc.mp hr
    have hrL : r ∈ L := hstL ▸ hrst
    obtain ⟨-, -, -, hex, hact, hrev, -⟩ := hprops r hrL
    have hdl : pyMaxI 0 (pyInt ((r.expires_at - t) / 86400)) = 30 := by
      rw [hex]
      have h30 : (t + (((some 30 : Option ℚ)).getD 30) * 86400 - t) / 86400 = 30 := by
        norm_num
      rw [h30]
      have hfl : pyInt (30 : ℚ) = 30 := by
        rw [pyInt_eq_floor (by norm_num)]
        norm_num
      rw [hfl]
      decide
    rw [← hre]
    refine ⟨?_, hrev, hdl⟩
    simp [hact]

/-- C7 witness: with the concrete entropy `entZero` and t = 0, generation
succeeds, returns 3 keys, and the immediate admin list shows
`days_left = 30` on every entry. -/
theorem generate_three_then_list_witness :
    ∃ resp st, admin_generate [] (some 3) (some 30) "a@b.com" "" 0 entZero
        = some (resp, st) ∧
      resp.keys.length = 3 ∧ ∀ e ∈ admin_list st 0, e.days_left = 30 := by
  cases hgen : admin_generate [] (some 3) (some 30) "a@b.com" "" 0 entZero with
  | none => exact absurd hgen (by decide)
  | some p =>
    obtain ⟨resp, st⟩ := p
    have h := generate_three_then_list 0 entZero resp st hgen
    exact ⟨resp, st, rfl, h.1, fun e he => (h.2.2.2.2 e he).2.2⟩

/-- C8: every key produced by the key generator on an 8-byte entropy input
matches `XXXX-XXXX-XXXX-XXXX` with uppercase hex digits, and generation
preserves the store-wide uniqueness of keys (a duplicate insert is refused
by the UNIQUE constraint, so a successful generate keeps all stored keys
distinct). -/
theorem key_format_and_uniqueness :
    (∀ bytes : List ℕ, bytes.length = 8 → keyFormat (generate_key bytes) = true) ∧
    (∀ (store : Store) (countArg : Option ℤ) (daysArg : Option ℚ) (email notes : String) (now : ℚ)
        (entropy : ℕ → List ℕ) (resp : GenResponse) (st : Store),
      storeKeysNodup store →
      admin_generate store countArg daysArg email notes now entropy = some (resp, st) →
      storeKeysNodup st) :=
  ⟨keyFormat_generate_key,
   fun _ _ _ _ _ _ _ _ _ hnd h => admin_generate_nodup hnd h⟩

/-- C8 witness: the key generated from bytes `AB CD 12 34 56 78 9A BC`
has the required format, and a concrete 2-key generation on an empty store
yields a store with pairwise-distinct keys. -/
theorem key_format_and_uniqueness_witness :
    keyFormat (generate_key [171, 205, 18, 52, 86, 120, 154, 188]) = true ∧
    storeKeysNodup [⟨"0000-0000-0000-0000", "", "", 0, 0 + 30 * 86400, 0, false, ""⟩,
      ⟨"0100-0000-0000-0000", "", "", 0, 0 + 30 * 86400, 0, false, ""⟩] := by
  constructor
  · exact key_format_and_uniqueness.1 [171, 205, 18, 52, 86, 120, 154, 188] rfl
  · exact key_format_and_uniqueness.2 [] (some 2) none "" "" 0 entZero
      ⟨["0000-0000-0000-0000", "0100-0000-0000-0000"], 30, 0 + 30 * 86400, 2⟩
      [⟨"0000-0000-0000-0000", "", "", 0, 0 + 30 * 86400, 0, false, ""⟩,
       ⟨"0100-0000-0000-0000", "", "", 0, 0 + 30 * 86400, 0, false, ""⟩]
      (by decide) rfl

end RCTank
